import Mathlib

set_option maxRecDepth 100000

/-!
Verification development for the MERF (mixed-effects random forest) core,
a shallow embedding of src/merf/merf.py.

Scalars are modelled as rationals.  The external numerical collaborators
(the scikit-learn RandomForestRegressor, numpy's pinv and slogdet) are
modelled as abstract oracles packaged in a NumEnv value: the claims under
study concern the bookkeeping of the EM loop (which quantities are computed
where, from which frozen parameters, in which order), not the numerical
content of those library routines.
-/

namespace Merf

abbrev Vec := List ℚ

abbrev Mat := List (List ℚ)

/-- Random-effect coefficient table, mirroring the pandas DataFrame
b_hat_df indexed by cluster id (source line 118). -/
abbrev BHat := List (ℕ × Vec)

/-- Inner product of two vectors (numpy 1-d dot). -/
def dot (u v : Vec) : ℚ := (List.zipWith (· * ·) u v).sum

/-- Matrix–vector product: one dot per row. -/
def matVec (M : Mat) (v : Vec) : Vec := M.map (fun r => dot r v)

/-- Transpose of a (rectangular) matrix. -/
def transpose (M : Mat) : Mat :=
  (List.range (M.headD []).length).map (fun j => M.map (fun r => r.getD j 0))

/-- Matrix product A·B. -/
def matMul (A B : Mat) : Mat :=
  A.map (fun r => (transpose B).map (fun c => dot r c))

def matAdd (A B : Mat) : Mat := List.zipWith (List.zipWith (· + ·)) A B

def matSub (A B : Mat) : Mat := List.zipWith (List.zipWith (· - ·)) A B

def smulMat (a : ℚ) (M : Mat) : Mat := M.map (fun r => r.map (fun x => a * x))

def vsub (u v : Vec) : Vec := List.zipWith (· - ·) u v

/-- Outer product of two vectors (np.outer). -/
def outer (u v : Vec) : Mat := u.map (fun a => v.map (fun b => a * b))

/-- Trace: sum of the diagonal (np.trace). -/
def trace (M : Mat) : ℚ := (M.enum.map (fun p => p.2.getD p.1 0)).sum

/-- Identity matrix (np.eye). -/
def identity (n : ℕ) : Mat :=
  (List.range n).map (fun i => (List.range n).map (fun j => if i = j then (1 : ℚ) else 0))

def zeroMat (n m : ℕ) : Mat := List.replicate n (List.replicate m (0 : ℚ))

/-- Boolean-mask row selection, numpy's xs[mask]. -/
def maskSelect {α : Type} : List Bool → List α → List α
  | true :: ms, x :: xs => x :: maskSelect ms xs
  | false :: ms, _ :: xs => maskSelect ms xs
  | _, _ => []

/-- Boolean-mask scatter assignment, numpy's ys[mask] = vs. -/
def maskScatter : List Bool → List ℚ → List ℚ → List ℚ
  | [], ys, _ => ys
  | _ :: _, [], _ => []
  | true :: ms, _ :: ys, v :: vs => v :: maskScatter ms ys vs
  | true :: ms, y :: ys, [] => y :: maskScatter ms ys []
  | false :: ms, y :: ys, vs => y :: maskScatter ms ys vs

/-- Boolean-mask scatter increment, numpy's ys[mask] += vs. -/
def maskAddScatter : List Bool → List ℚ → List ℚ → List ℚ
  | [], ys, _ => ys
  | _ :: _, [], _ => []
  | true :: ms, y :: ys, v :: vs => (y + v) :: maskAddScatter ms ys vs
  | true :: ms, y :: ys, [] => y :: maskAddScatter ms ys []
  | false :: ms, y :: ys, vs => y :: maskAddScatter ms ys vs

/-- Distinct cluster ids in order of first appearance.  The source uses
pandas value_counts, whose order (frequency-descending, ties
implementation-defined) is deterministic for a given input; every claim
under study is independent of the particular deterministic order, so the
embedding fixes first-appearance order. -/
def dedupAux : List ℕ → List ℕ → List ℕ
  | [], _ => []
  | x :: xs, seen => if x ∈ seen then dedupAux xs seen else x :: dedupAux xs (x :: seen)

/-- See the comment above dedupAux: deterministic distinct-cluster order. -/
def dedupFirst (l : List ℕ) : List ℕ := dedupAux l []

/-- Per-cluster cached slices, mirroring the once-per-fit slicing of
Z_by_cluster, y_by_cluster, n_by_cluster, I_by_cluster and
indices_by_cluster (source lines 93–111). -/
structure ClusterData where
  id : ℕ
  mask : List Bool
  Z_i : Mat
  y_i : Vec
  n_i : ℕ
  I_i : Mat

def buildCluster (Z : Mat) (y : Vec) (clusters : List ℕ) (cid : ℕ) : ClusterData :=
  let mask := clusters.map (fun x => decide (x = cid))
  { id := cid
    mask := mask
    Z_i := maskSelect mask Z
    y_i := maskSelect mask y
    n_i := clusters.count cid
    I_i := identity (clusters.count cid) }

/-- DataFrame .loc read b_hat_df.loc[cid].  Every id the code looks up is
present in the table; the [] default only keeps the function total. -/
def lookupD (b : BHat) (cid : ℕ) : Vec :=
  match b.find? (fun p => p.1 == cid) with
  | some p => p.2
  | none => []

/-- DataFrame .loc write b_hat_df.loc[cid, :] = v (source line 192): the
row for an existing index label is overwritten in place. -/
def bhatUpdate (b : BHat) (cid : ℕ) (v : Vec) : BHat :=
  b.map (fun p => if p.1 == cid then (p.1, v) else p)

/-- A fitted ensemble regressor: its out-of-bag prediction vector
(rf.oob_prediction_) and its predict method. -/
structure RFModel where
  oob : Vec
  predictFn : Mat → Vec

/-- Abstract numerical environment: the RandomForestRegressor training
routine (n_estimators, X, target ↦ fitted model), np.linalg.pinv and
np.linalg.slogdet (sign, log-magnitude). -/
structure NumEnv where
  rfFit : ℕ → Mat → Vec → RFModel
  pinv : Mat → Mat
  slogdet : Mat → ℚ × ℚ

/-- Model state, mirroring the MERF object's fields. -/
structure MERF where
  n_estimators : ℕ
  min_iterations : ℕ
  gll_early_stop_threshold : Option ℚ
  max_iterations : ℕ
  cluster_counts : Option (List (ℕ × ℕ))
  trained_rf : Option RFModel
  trained_b : Option BHat
  b_hat_history : List BHat
  sigma2_hat_history : List ℚ
  D_hat_history : List Mat
  gll_history : List ℚ

/-- MERF.__init__ (source lines 17–30). -/
def MERF.init (nEst minIter : ℕ) (thr : Option ℚ) (maxIter : ℕ) : MERF :=
  { n_estimators := nEst
    min_iterations := minIter
    gll_early_stop_threshold := thr
    max_iterations := maxIter
    cluster_counts := none
    trained_rf := none
    trained_b := none
    b_hat_history := []
    sigma2_hat_history := []
    D_hat_history := []
    gll_history := [] }

/-- Errors fit can raise: the assertion failures of lines 79–81
(ShapeMismatch of the spec taxonomy), and the UnboundLocalError raised at
line 261 when the loop body never ran and rf was never bound. -/
inductive FitError where
  | shapeMismatch
  | unboundLocalRf
deriving DecidableEq

/-- Membership in the spec's error taxonomy (§7: ShapeMismatch, NotFitted,
Unimplemented).  Of the errors fit can raise only ShapeMismatch belongs. -/
def FitError.inTaxonomy : FitError → Prop
  | .shapeMismatch => True
  | .unboundLocalRf => False

inductive PredictError where
  | notFitted
deriving DecidableEq

structure FitInput where
  X : Mat
  Z : Mat
  clusters : List ℕ
  y : Vec

/-- Per-fit-call constants: the numerical environment, n_estimators, the
early-stop threshold, X, n_obs, n_clusters, q and the cached cluster
slices. -/
structure FitCtx where
  env : NumEnv
  nest : ℕ
  thr : Option ℚ
  X : Mat
  n_obs : ℕ
  n_clusters : ℕ
  q : ℕ
  cds : List ClusterData

/-- Loop-local state of the EM while-loop (source lines 114–257).  The
four Snaps lists hold the entries this fit call appends to the instance
histories during the loop (the per-iteration appends of lines 213–215 and
245); the initial pre-loop appends of lines 123–125 are attached at
finalisation. -/
structure LoopState where
  iteration : ℕ
  b_hat_df : BHat
  sigma2_hat : ℚ
  D_hat : Mat
  rf : Option RFModel
  bSnaps : List BHat
  sigmaSnaps : List ℚ
  DSnaps : List Mat
  gllSnaps : List ℚ
  stop_flag : Bool
  iter_begun : Bool
  rfCalls : ℕ

/-- E-step (source lines 136–148): scatter y_i − Z_i·b_hat_i for every
cluster into a zero vector aligned with the original row order. -/
def yStarOf (cds : List ClusterData) (b : BHat) (n : ℕ) : Vec :=
  cds.foldl
    (fun acc c => maskScatter c.mask acc (vsub c.y_i (matVec c.Z_i (lookupD b c.id))))
    (List.replicate n 0)

/-- One M-step cluster visit (source lines 163–202).  sigma2 and D are the
frozen pre-iteration variance components; the accumulator carries
(b_hat_df, sigma2_hat_sum, D_hat_sum). -/
def mStepCluster (env : NumEnv) (sigma2 : ℚ) (D : Mat) (fHat : Vec)
    (acc : BHat × ℚ × Mat) (c : ClusterData) : BHat × ℚ × Mat :=
  let f_i := maskSelect c.mask fHat
  let V := matAdd (matMul (matMul c.Z_i D) (transpose c.Z_i)) (smulMat sigma2 c.I_i)
  let Vinv := env.pinv V
  let b_i := matVec (matMul (matMul D (transpose c.Z_i)) Vinv) (vsub c.y_i f_i)
  let eps := vsub (vsub c.y_i f_i) (matVec c.Z_i b_i)
  (bhatUpdate acc.1 c.id b_i,
   acc.2.1 + (dot eps eps + sigma2 * ((c.n_i : ℚ) - sigma2 * trace Vinv)),
   matAdd acc.2.2
     (matAdd (outer b_i b_i)
       (matSub D (matMul (matMul (matMul (matMul D (transpose c.Z_i)) Vinv) c.Z_i) D))))

/-- The whole M-step pass over the clusters (source lines 160–202). -/
def mStepFold (env : NumEnv) (sigma2 : ℚ) (D : Mat) (fHat : Vec)
    (cds : List ClusterData) (b0 : BHat) (q : ℕ) : BHat × ℚ × Mat :=
  cds.foldl (mStepCluster env sigma2 D fHat) (b0, 0, zeroMat q q)

/-- One cluster's GLL contribution (source lines 219–242), evaluated at
the post-update sigma2, D and coefficient table of the iteration.  The
log-determinants are the log-magnitude component of slogdet. -/
def gllCluster (env : NumEnv) (sigma2 : ℚ) (D : Mat) (fHat : Vec) (b : BHat)
    (c : ClusterData) : ℚ :=
  let f_i := maskSelect c.mask fHat
  let R := smulMat sigma2 c.I_i
  let b_i := lookupD b c.id
  let eps := vsub (vsub c.y_i f_i) (matVec c.Z_i b_i)
  dot eps (matVec (env.pinv R) eps) + dot b_i (matVec (env.pinv D) b_i)
    + (env.slogdet D).2 + (env.slogdet R).2

def gllSum (env : NumEnv) (sigma2 : ℚ) (D : Mat) (fHat : Vec) (b : BHat)
    (cds : List ClusterData) : ℚ :=
  cds.foldl (fun a c => a + gllCluster env sigma2 D fHat b c) 0

/-- Early-stop bookkeeping (source lines 247–257).  When the threshold is
set, the first iteration only flips iter_begun; afterwards the relative
GLL change decides the stop.  numpy division by a zero previous GLL yields
inf or nan, both of which compare false against the threshold, hence the
prevGll ≠ 0 conjunct. -/
def stopUpdate (thr : Option ℚ) (prevGll g : ℚ) (stop begun : Bool) : Bool × Bool :=
  match thr with
  | none => (stop, begun)
  | some t =>
    if !begun then (stop, true)
    else (if prevGll ≠ 0 ∧ |(g - prevGll) / prevGll| < t then true else stop, begun)

/-- One EM iteration (the body of the while loop, source lines 129–257). -/
def emStep (ctx : FitCtx) (s : LoopState) : LoopState :=
  let y_star := yStarOf ctx.cds s.b_hat_df ctx.n_obs
  let rfm := ctx.env.rfFit ctx.nest ctx.X y_star
  let fHat := rfm.oob
  let msr := mStepFold ctx.env s.sigma2_hat s.D_hat fHat ctx.cds s.b_hat_df ctx.q
  let sigma2N := (1 / (ctx.n_obs : ℚ)) * msr.2.1
  let DN := smulMat (1 / (ctx.n_clusters : ℚ)) msr.2.2
  let g := gllSum ctx.env sigma2N DN fHat msr.1 ctx.cds
  let sb := stopUpdate ctx.thr (s.gllSnaps.getLastD 0) g s.stop_flag s.iter_begun
  { iteration := s.iteration + 1
    b_hat_df := msr.1
    sigma2_hat := sigma2N
    D_hat := DN
    rf := some rfm
    bSnaps := s.bSnaps ++ [msr.1]
    sigmaSnaps := s.sigmaSnaps ++ [sigma2N]
    DSnaps := s.DSnaps ++ [DN]
    gllSnaps := s.gllSnaps ++ [g]
    stop_flag := sb.1
    iter_begun := sb.2
    rfCalls := s.rfCalls + 1 }

/-- The while loop: while iteration < max_iterations and not stop_flag.
The fuel argument is max_iterations − iteration. -/
def emLoop (ctx : FitCtx) : ℕ → LoopState → LoopState
  | 0, s => s
  | fuel + 1, s => if s.stop_flag then s else emLoop ctx fuel (emStep ctx s)

/-- Pre-loop EM state (source lines 114–127): zero coefficients for every
cluster, sigma2_hat = 1, D_hat = identity. -/
def initState (ids : List ℕ) (q : ℕ) : LoopState :=
  { iteration := 0
    b_hat_df := ids.map (fun c => (c, List.replicate q (0 : ℚ)))
    sigma2_hat := 1
    D_hat := identity q
    rf := none
    bSnaps := []
    sigmaSnaps := []
    DSnaps := []
    gllSnaps := []
    stop_flag := false
    iter_begun := false
    rfCalls := 0 }

/-- Everything a successful fit call contributes to the model object:
trained artefacts plus the history entries this call appends. -/
structure CoreResult where
  cluster_counts : List (ℕ × ℕ)
  rfm : RFModel
  b_hat_df : BHat
  bHist : List BHat
  sigmaHist : List ℚ
  DHist : List Mat
  gllHist : List ℚ
  iterations : ℕ

/-- Source lines 259–264 plus the pre-loop history appends.  Line 123
appends b_hat_df itself with no .copy(); the very same object is then
mutated in place by line 192 every iteration, so after fit returns that
first history slot holds the final coefficient table — the embedding
records the slot by its post-fit value.  Lines 124–125 append the scalar 1
and np.eye(q), neither of which is ever mutated.  Line 261 reads the local
rf, which is unbound when the loop body never ran. -/
def finalizeCore (cc : List (ℕ × ℕ)) (q : ℕ) (s : LoopState) :
    Except FitError CoreResult × ℕ :=
  match s.rf with
  | none => (.error .unboundLocalRf, s.rfCalls)
  | some rfm =>
    (.ok
      { cluster_counts := cc
        rfm := rfm
        b_hat_df := s.b_hat_df
        bHist := s.b_hat_df :: s.bSnaps
        sigmaHist := 1 :: s.sigmaSnaps
        DHist := identity q :: s.DSnaps
        gllHist := s.gllSnaps
        iterations := s.iteration }, s.rfCalls)

/-- Random-effect dimension q = Z.shape[1] (source line 86). -/
def qOf (inp : FitInput) : ℕ := (inp.Z.headD []).length

/-- cluster_counts = clusters.value_counts() (source line 90): one
(cluster id, n_i) entry per distinct cluster. -/
def ccOf (inp : FitInput) : List (ℕ × ℕ) :=
  (dedupFirst inp.clusters).map (fun c => (c, inp.clusters.count c))

/-- The per-fit-call constants assembled from the input (source lines
84–111). -/
def mkCtx (env : NumEnv) (nest : ℕ) (thr : Option ℚ) (inp : FitInput) : FitCtx :=
  { env := env
    nest := nest
    thr := thr
    X := inp.X
    n_obs := inp.y.length
    n_clusters := (dedupFirst inp.clusters).length
    q := qOf inp
    cds := (dedupFirst inp.clusters).map (buildCluster inp.Z inp.y inp.clusters) }

/-- MERF.fit without the object plumbing (source lines 78–264): shape
asserts, cluster partition build, EM loop, finalisation.  The second
component counts regressor fit calls (one per executed iteration). -/
def fitCore (env : NumEnv) (nest : ℕ) (thr : Option ℚ) (maxIter : ℕ)
    (inp : FitInput) : Except FitError CoreResult × ℕ :=
  if inp.Z.length ≠ inp.X.length then (.error .shapeMismatch, 0)
  else if inp.y.length ≠ inp.X.length then (.error .shapeMismatch, 0)
  else if inp.clusters.length ≠ inp.X.length then (.error .shapeMismatch, 0)
  else
    finalizeCore (ccOf inp) (qOf inp)
      (emLoop (mkCtx env nest thr inp) maxIter (initState (dedupFirst inp.clusters) (qOf inp)))

/-- Write a successful fit's results onto the model object: lines 260–262
plus the history appends accumulated during the call.  Histories are
instance fields that fit never clears, so the new entries extend whatever
previous fit calls left behind. -/
def applyToModel (m : MERF) (cr : CoreResult) : MERF :=
  { m with
    cluster_counts := some cr.cluster_counts
    trained_rf := some cr.rfm
    trained_b := some cr.b_hat_df
    b_hat_history := m.b_hat_history ++ cr.bHist
    sigma2_hat_history := m.sigma2_hat_history ++ cr.sigmaHist
    D_hat_history := m.D_hat_history ++ cr.DHist
    gll_history := m.gll_history ++ cr.gllHist }

structure FitResult where
  model : MERF
  iterations : ℕ

/-- MERF.fit.  The second component is the regressor-fit call count. -/
def fitAux (env : NumEnv) (m : MERF) (inp : FitInput) :
    Except FitError FitResult × ℕ :=
  let p := fitCore env m.n_estimators m.gll_early_stop_threshold m.max_iterations inp
  (p.1.map (fun cr => { model := applyToModel m cr, iterations := cr.iterations }), p.2)

def fit (env : NumEnv) (m : MERF) (inp : FitInput) : Except FitError FitResult :=
  (fitAux env m inp).1

/-- One pass of the predict correction loop (source lines 54–64) for one
training cluster id.  The source's skip test is len(indices_i) == 0 on the
boolean mask, i.e. on the number of prediction rows; for a training
cluster absent from the prediction input the mask is all-false and the
masked increment touches no row. -/
def predictStep (tb : BHat) (clusters : List ℕ) (Z : Mat) (y_hat : Vec) (cid : ℕ) : Vec :=
  let mask := clusters.map (fun x => decide (x = cid))
  if mask.length = 0 then y_hat
  else
    let b_i := lookupD tb cid
    let Z_i := maskSelect mask Z
    maskAddScatter mask y_hat (matVec Z_i b_i)

/-- MERF.predict (source lines 32–66). -/
def predict (m : MERF) (X Z : Mat) (clusters : List ℕ) : Except PredictError Vec :=
  match m.trained_rf with
  | none => .error .notFitted
  | some rfm =>
    let y_hat := rfm.predictFn X
    let ids := (m.cluster_counts.getD []).map Prod.fst
    .ok (ids.foldl (predictStep (m.trained_b.getD []) clusters Z) y_hat)

/-- MERF.predict together with the post-call object state, reconstructed
field by field: the method body assigns to no attribute of self, so every
field is returned exactly as it was. -/
def predictSt (m : MERF) (X Z : Mat) (clusters : List ℕ) :
    Except PredictError Vec × MERF :=
  (predict m X Z clusters,
   { n_estimators := m.n_estimators
     min_iterations := m.min_iterations
     gll_early_stop_threshold := m.gll_early_stop_threshold
     max_iterations := m.max_iterations
     cluster_counts := m.cluster_counts
     trained_rf := m.trained_rf
     trained_b := m.trained_b
     b_hat_history := m.b_hat_history
     sigma2_hat_history := m.sigma2_hat_history
     D_hat_history := m.D_hat_history
     gll_history := m.gll_history })

/-! Spec-side definitions.  These follow the words of the specification
(§4.2 step 3 and §4.3), to be compared with the code-side folds above. -/

/-- Spec §4.2: V_hat_i = Z_i · D_hat · Z_i^T + sigma2_hat · I_i. -/
def VHatSpec (sigma2 : ℚ) (D : Mat) (c : ClusterData) : Mat :=
  matAdd (matMul (matMul c.Z_i D) (transpose c.Z_i)) (smulMat sigma2 c.I_i)

/-- Spec §4.2: V_hat_inv_i = pseudo-inverse(V_hat_i). -/
def VHatInvSpec (env : NumEnv) (sigma2 : ℚ) (D : Mat) (c : ClusterData) : Mat :=
  env.pinv (VHatSpec sigma2 D c)

/-- Spec §4.2: b_hat_i = D_hat · Z_i^T · V_hat_inv_i · (y_i − f_hat_i). -/
def bHatSpec (env : NumEnv) (sigma2 : ℚ) (D : Mat) (fHat : Vec) (c : ClusterData) : Vec :=
  matVec (matMul (matMul D (transpose c.Z_i)) (VHatInvSpec env sigma2 D c))
    (vsub c.y_i (maskSelect c.mask fHat))

/-- Spec §4.2: eps_hat_i = y_i − f_hat_i − Z_i · b_hat_i. -/
def epsHatSpec (env : NumEnv) (sigma2 : ℚ) (D : Mat) (fHat : Vec) (c : ClusterData) : Vec :=
  vsub (vsub c.y_i (maskSelect c.mask fHat)) (matVec c.Z_i (bHatSpec env sigma2 D fHat c))

/-- Spec §4.2: the cluster's contribution to sigma2_sum,
eps_hat_i^T·eps_hat_i + sigma2_hat·(n_i − sigma2_hat·trace(V_hat_inv_i)). -/
def sigma2TermSpec (env : NumEnv) (sigma2 : ℚ) (D : Mat) (fHat : Vec) (c : ClusterData) : ℚ :=
  dot (epsHatSpec env sigma2 D fHat c) (epsHatSpec env sigma2 D fHat c)
    + sigma2 * ((c.n_i : ℚ) - sigma2 * trace (VHatInvSpec env sigma2 D c))

/-- Spec §4.2: the cluster's contribution to D_sum,
outer(b_hat_i, b_hat_i) + (D_hat − D_hat·Z_i^T·V_hat_inv_i·Z_i·D_hat). -/
def DTermSpec (env : NumEnv) (sigma2 : ℚ) (D : Mat) (fHat : Vec) (c : ClusterData) : Mat :=
  matAdd (outer (bHatSpec env sigma2 D fHat c) (bHatSpec env sigma2 D fHat c))
    (matSub D
      (matMul (matMul (matMul (matMul D (transpose c.Z_i)) (VHatInvSpec env sigma2 D c)) c.Z_i) D))

/-- Spec §4.3: one cluster's GLL term,
(y_i−f_hat_i−Z_i·b_hat_i)^T·pinv(R_i)·(y_i−f_hat_i−Z_i·b_hat_i)
+ b_hat_i^T·pinv(D_hat)·b_hat_i + logdet(D_hat) + logdet(R_i) with
R_i = sigma2_hat·I_i and logdet the log-magnitude component of the
sign/log-magnitude decomposition. -/
def gllClusterSpec (env : NumEnv) (sigma2 : ℚ) (D : Mat) (fHat : Vec) (b : BHat)
    (c : ClusterData) : ℚ :=
  let R_i := smulMat sigma2 c.I_i
  let b_i := lookupD b c.id
  let eps := vsub (vsub c.y_i (maskSelect c.mask fHat)) (matVec c.Z_i b_i)
  dot eps (matVec (env.pinv R_i) eps) + dot b_i (matVec (env.pinv D) b_i)
    + (env.slogdet D).2 + (env.slogdet R_i).2

/-- Spec §4.3: GLL = Σ_i gllClusterSpec. -/
def gllSpec (env : NumEnv) (sigma2 : ℚ) (D : Mat) (fHat : Vec) (b : BHat)
    (cds : List ClusterData) : ℚ :=
  (cds.map (gllClusterSpec env sigma2 D fHat b)).sum

/-! Concrete environments and inputs used by witnesses and
counterexamples. -/

/-- A concrete numerical environment: the regressor's out-of-bag
prediction is the zero vector, predictions are the constant 10, the
pseudo-inverse oracle is the identity map and slogdet is constantly
(1, 0). -/
def envC : NumEnv :=
  { rfFit := fun _ _ ys =>
      { oob := ys.map (fun _ => 0), predictFn := fun M => M.map (fun _ => 10) }
    pinv := fun M => M
    slogdet := fun _ => (1, 0) }

/-- A concrete numerical environment whose GLL is constant across
iterations (the out-of-bag prediction reproduces the target exactly, so
all residuals vanish and only the constant slogdet terms remain), which
lets a large early-stop threshold fire at iteration 2. -/
def envS : NumEnv :=
  { rfFit := fun _ _ ys => { oob := ys, predictFn := fun M => M.map (fun _ => 0) }
    pinv := fun M => M
    slogdet := fun _ => (1, 5) }

/-- Two observations in one cluster. -/
def inpC : FitInput :=
  { X := [[1], [0]], Z := [[1], [1]], clusters := [0, 0], y := [1, 2] }

/-- Two observations in two clusters. -/
def inpC2 : FitInput :=
  { X := [[1], [0]], Z := [[1], [1]], clusters := [0, 1], y := [1, 2] }

/-- inpC with y one element shorter than X. -/
def inpBad : FitInput :=
  { X := [[1], [0]], Z := [[1], [1]], clusters := [0, 0], y := [1] }

/-- Number of EM iterations a fit call ran, when it succeeded. -/
def runIters (env : NumEnv) (m : MERF) (inp : FitInput) : Option ℕ :=
  match fit env m inp with
  | .ok r => some r.iterations
  | .error _ => none

/-- Observable history/final-coefficient projection of a fit call: the
first b_hat history entry, the trained coefficient table and the
iteration count. -/
def headAndFinal (env : NumEnv) (m : MERF) (inp : FitInput) : Option (BHat × BHat × ℕ) :=
  match fit env m inp with
  | .ok r => some (r.model.b_hat_history.headD [], r.model.trained_b.getD [], r.iterations)
  | .error _ => none

/-- History length and iteration count after two consecutive fit calls on
the same instance. -/
def fitTwiceLens (env : NumEnv) (m : MERF) (inp : FitInput) : Option (ℕ × ℕ) :=
  match fit env m inp with
  | .ok r1 =>
    match fit env r1.model inp with
    | .ok r2 => some (r2.model.b_hat_history.length, r2.iterations)
    | .error _ => none
  | .error _ => none

def isOkFit (e : Except FitError FitResult) : Bool :=
  match e with
  | .ok _ => true
  | .error _ => false

/-- Iteration count of a fitCore outcome, when it succeeded. -/
def itersCore (p : Except FitError CoreResult × ℕ) : Option ℕ :=
  match p.1 with
  | .ok cr => some cr.iterations
  | .error _ => none

/-- Concrete trained regressor for the C7 witness. -/
def rfmW : RFModel := { oob := [], predictFn := fun M => M.map (fun _ => 10) }

/-- Concrete fitted-state model for the C7 witness: training clusters 0
and 5. -/
def mW : MERF :=
  { n_estimators := 3, min_iterations := 10,
    gll_early_stop_threshold := none, max_iterations := 5,
    cluster_counts := some [(0, 2), (5, 1)],
    trained_rf := some rfmW,
    trained_b := some [(0, [3]), (5, [7])],
    b_hat_history := [], sigma2_hat_history := [],
    D_hat_history := [], gll_history := [] }

/-- Concrete fit context for the C1 witness. -/
def ctxW1 : FitCtx := mkCtx envC 3 none inpC2

/-- Concrete pre-iteration loop state for the C1 witness. -/
def sW1 : LoopState := initState (dedupFirst inpC2.clusters) (qOf inpC2)

/-- Concrete cluster slice (cluster 0 of inpC2) for the C1 witness. -/
def cW1 : ClusterData := buildCluster inpC2.Z inpC2.y inpC2.clusters 0

/-! Theorems. -/

/-- C6: for every call to fit where any of X, Z, clusters, y disagree in
row count, fit fails with a ShapeMismatch error before any other
computation and before any regressor fit occurs (the regressor-fit call
counter is zero), leaving no partial result. -/
theorem c6_shape_mismatch (env : NumEnv) (m : MERF) (inp : FitInput)
    (h : ¬(inp.Z.length = inp.X.length ∧ inp.y.length = inp.X.length ∧
           inp.clusters.length = inp.X.length)) :
    fitAux env m inp = (.error .shapeMismatch, 0) := by
  unfold fitAux fitCore
  by_cases h1 : inp.Z.length = inp.X.length
  · by_cases h2 : inp.y.length = inp.X.length
    · by_cases h3 : inp.clusters.length = inp.X.length
      · exact absurd ⟨h1, h2, h3⟩ h
      · simp [h1, h2, h3, Except.map]
    · simp [h1, h2, Except.map]
  · simp [h1, Except.map]

/-- C6 witness: a fit call with y one element shorter than X fails with
ShapeMismatch and zero regressor fits. -/
theorem c6_shape_mismatch_witness :
    fitAux envC (MERF.init 3 10 none 5) inpBad = (.error .shapeMismatch, 0) :=
  c6_shape_mismatch envC (MERF.init 3 10 none 5) inpBad (by decide)

/-- C10: with well-shaped inputs and max_iterations = 0 the EM loop body
never executes (zero regressor fits), so the final assignment of the
trained regressor reads the never-bound local rf and fit fails with an
UnboundLocalError, an error outside the spec's taxonomy, instead of
returning a usable model. -/
theorem c10_zero_max_iterations (env : NumEnv) (m : MERF) (inp : FitInput)
    (h1 : inp.Z.length = inp.X.length) (h2 : inp.y.length = inp.X.length)
    (h3 : inp.clusters.length = inp.X.length) (h0 : m.max_iterations = 0) :
    fitAux env m inp = (.error .unboundLocalRf, 0) ∧
      ¬ FitError.inTaxonomy .unboundLocalRf := by
  constructor
  · unfold fitAux fitCore
    rw [h0]
    simp [h1, h2, h3, emLoop, finalizeCore, initState, Except.map]
  · simp [FitError.inTaxonomy]

/-- C10 witness: fit with max_iterations = 0 on well-shaped concrete data
fails with the out-of-taxonomy UnboundLocalError and zero regressor
fits. -/
theorem c10_zero_max_iterations_witness :
    fitAux envC (MERF.init 3 10 none 0) inpC = (.error .unboundLocalRf, 0) ∧
      ¬ FitError.inTaxonomy .unboundLocalRf :=
  c10_zero_max_iterations envC (MERF.init 3 10 none 0) inpC rfl rfl rfl rfl

/-- C8: min_iterations is never consulted: fitting a model whose
min_iterations field has been replaced by an arbitrary value changes
nothing in the outcome — same error or success, same iteration count,
same regressor-fit count, and a result model identical except for the
stored min_iterations value itself. -/
theorem c8_min_iterations_unused (env : NumEnv) (m : MERF) (inp : FitInput) (k : ℕ) :
    fitAux env { m with min_iterations := k } inp =
      ((fitAux env m inp).1.map
        (fun r => { model := { r.model with min_iterations := k },
                    iterations := r.iterations }),
       (fitAux env m inp).2) := by
  unfold fitAux
  dsimp only
  rcases fitCore env m.n_estimators m.gll_early_stop_threshold m.max_iterations inp
    with ⟨a, n⟩
  cases a with
  | error e => rfl
  | ok cr => rfl

theorem maskAddScatter_length (ms : List Bool) (ys vs : List ℚ) :
    (maskAddScatter ms ys vs).length = ys.length := by
  induction ms generalizing ys vs with
  | nil => rfl
  | cons b ms ih =>
    cases ys with
    | nil => cases b <;> rfl
    | cons y ys =>
      cases b with
      | true => cases vs with
        | nil => simp [maskAddScatter, ih]
        | cons v vs => simp [maskAddScatter, ih]
      | false => simp [maskAddScatter, ih]

theorem maskSelect_map {α β : Type} (f : α → β) (ms : List Bool) (l : List α) :
    (maskSelect ms l).map f = maskSelect ms (l.map f) := by
  induction ms generalizing l with
  | nil => cases l <;> rfl
  | cons b ms ih =>
    cases l with
    | nil => cases b <;> rfl
    | cons x xs => cases b <;> simp [maskSelect, ih]

theorem getD_map_of_lt {α β : Type} (f : α → β) (l : List α) (r : ℕ) (d : β) (d0 : α)
    (hr : r < l.length) : (l.map f).getD r d = f (l.getD r d0) := by
  induction l generalizing r with
  | nil => simp at hr
  | cons x xs ih =>
    cases r with
    | zero => rfl
    | succ r => simpa using ih r (by simpa using hr)

theorem maskAddScatter_select_getD (ms : List Bool) (ys ws : List ℚ)
    (hy : ys.length = ms.length) (hw : ws.length = ms.length) (r : ℕ)
    (hr : r < ms.length) :
    (maskAddScatter ms ys (maskSelect ms ws)).getD r 0 =
      ys.getD r 0 + (if ms.getD r false then ws.getD r 0 else 0) := by
  induction ms generalizing ys ws r with
  | nil => simp at hr
  | cons b ms ih =>
    cases ys with
    | nil => simp at hy
    | cons y ys =>
      cases ws with
      | nil => simp at hw
      | cons w ws =>
        have hy' : ys.length = ms.length := by simpa using hy
        have hw' : ws.length = ms.length := by simpa using hw
        cases b with
        | true =>
          cases r with
          | zero => simp [maskSelect, maskAddScatter]
          | succ r =>
            have hr' : r < ms.length := by simpa using hr
            simpa [maskSelect, maskAddScatter] using ih ys ws hy' hw' r hr'
        | false =>
          cases r with
          | zero => simp [maskSelect, maskAddScatter]
          | succ r =>
            have hr' : r < ms.length := by simpa using hr
            simpa [maskSelect, maskAddScatter] using ih ys ws hy' hw' r hr'

theorem predictStep_length (tb : BHat) (cl : List ℕ) (Z : Mat) (y : Vec) (cid : ℕ) :
    (predictStep tb cl Z y cid).length = y.length := by
  unfold predictStep
  dsimp only
  by_cases h : (cl.map (fun x => decide (x = cid))).length = 0
  · rw [if_pos h]
  · rw [if_neg h]
    exact maskAddScatter_length _ _ _

theorem predictStep_getD (tb : BHat) (cl : List ℕ) (Z : Mat) (y : Vec) (cid : ℕ)
    (r : ℕ) (hy : y.length = cl.length) (hZ : Z.length = cl.length)
    (hr : r < cl.length) :
    (predictStep tb cl Z y cid).getD r 0 =
      y.getD r 0 +
        (if cl.getD r 0 = cid then dot (Z.getD r []) (lookupD tb cid) else 0) := by
  unfold predictStep
  have hml : (cl.map (fun x => decide (x = cid))).length = cl.length := by simp
  rw [if_neg (by omega)]
  show (maskAddScatter _ y (matVec (maskSelect _ Z) (lookupD tb cid))).getD r 0 = _
  have hmv : matVec (maskSelect (cl.map (fun x => decide (x = cid))) Z) (lookupD tb cid)
      = maskSelect (cl.map (fun x => decide (x = cid)))
          (Z.map (fun row => dot row (lookupD tb cid))) := by
    unfold matVec
    exact maskSelect_map _ _ _
  rw [hmv]
  rw [maskAddScatter_select_getD _ y _ (by omega) (by simp [hZ]) r (by omega)]
  congr 1
  rw [getD_map_of_lt (fun x => decide (x = cid)) cl r false 0 hr]
  rw [getD_map_of_lt (fun row => dot row (lookupD tb cid)) Z r 0 [] (by omega)]
  simp

theorem foldl_predictStep_length (tb : BHat) (cl : List ℕ) (Z : Mat)
    (ids : List ℕ) (y : Vec) :
    (ids.foldl (predictStep tb cl Z) y).length = y.length := by
  induction ids generalizing y with
  | nil => rfl
  | cons cid ids ih => simp [List.foldl_cons, ih, predictStep_length]

theorem foldl_predictStep_getD (tb : BHat) (cl : List ℕ) (Z : Mat)
    (ids : List ℕ) (hnd : ids.Nodup) (y : Vec) (hy : y.length = cl.length)
    (hZ : Z.length = cl.length) (r : ℕ) (hr : r < cl.length) :
    (ids.foldl (predictStep tb cl Z) y).getD r 0 =
      y.getD r 0 +
        (if cl.getD r 0 ∈ ids then dot (Z.getD r []) (lookupD tb (cl.getD r 0)) else 0) := by
  induction ids generalizing y with
  | nil => simp
  | cons cid ids ih =>
    have hnd' := List.nodup_cons.mp hnd
    rw [List.foldl_cons]
    rw [ih hnd'.2 (predictStep tb cl Z y cid) ((predictStep_length tb cl Z y cid).trans hy)]
    rw [predictStep_getD tb cl Z y cid r hy hZ hr]
    by_cases hc : cl.getD r 0 = cid
    · subst hc
      rw [if_pos rfl, if_neg hnd'.1, if_pos (List.mem_cons_self _ _), add_zero]
    · rw [if_neg hc, add_zero]
      congr 1
      by_cases hm : cl.getD r 0 ∈ ids
      · rw [if_pos hm, if_pos (List.mem_cons.mpr (Or.inr hm))]
      · rw [if_neg hm, if_neg (by rw [List.mem_cons]; tauto)]

/-- C7: for every fitted model and every predict input, a row whose
cluster label was seen at training time receives the raw regressor
prediction plus Z_new·b_hat for that cluster, while a row with an unseen
label receives exactly the raw regressor prediction; predict succeeds
regardless of training clusters absent from the input. -/
theorem c7_predict_corrections (m : MERF) (rfm : RFModel) (cc : List (ℕ × ℕ))
    (X Z : Mat) (cl : List ℕ) (r : ℕ)
    (hrf : m.trained_rf = some rfm) (hcc : m.cluster_counts = some cc)
    (hnd : (cc.map Prod.fst).Nodup)
    (hZ : Z.length = cl.length) (hy0 : (rfm.predictFn X).length = cl.length)
    (hr : r < cl.length) :
    ∃ out, predict m X Z cl = .ok out ∧ out.length = cl.length ∧
      out.getD r 0 =
        (if cl.getD r 0 ∈ cc.map Prod.fst
         then (rfm.predictFn X).getD r 0 +
           dot (Z.getD r []) (lookupD (m.trained_b.getD []) (cl.getD r 0))
         else (rfm.predictFn X).getD r 0) := by
  refine ⟨(cc.map Prod.fst).foldl (predictStep (m.trained_b.getD []) cl Z)
    (rfm.predictFn X), ?_, ?_, ?_⟩
  · unfold predict
    rw [hrf, hcc]
    rfl
  · rw [foldl_predictStep_length]
    exact hy0
  · rw [foldl_predictStep_getD _ _ _ _ hnd _ hy0 hZ r hr]
    by_cases hmem : cl.getD r 0 ∈ cc.map Prod.fst
    · rw [if_pos hmem, if_pos hmem]
    · rw [if_neg hmem, if_neg hmem, add_zero]

/-- C7 witness: predicting on labels [0, 9] with training clusters 0 and
5 — cluster 5 is absent from the input (no error), label 9 was never
trained so row 1 gets the raw regressor prediction. -/
theorem c7_predict_corrections_witness :
    ∃ out, predict mW [[1], [1]] [[2], [4]] [0, 9] = .ok out ∧
      out.length = [0, 9].length ∧
      out.getD 1 0 =
        (if ([0, 9].getD 1 0) ∈ ([(0, 2), (5, 1)] : List (ℕ × ℕ)).map Prod.fst
         then (rfmW.predictFn [[1], [1]]).getD 1 0 +
           dot (([[2], [4]] : Mat).getD 1 []) (lookupD (mW.trained_b.getD []) ([0, 9].getD 1 0))
         else (rfmW.predictFn [[1], [1]]).getD 1 0) :=
  c7_predict_corrections mW rfmW [(0, 2), (5, 1)] [[1], [1]] [[2], [4]] [0, 9] 1
    rfl rfl (by decide) rfl rfl (by decide)

theorem foldl_add_eq {α : Type} (f : α → ℚ) (l : List α) (a : ℚ) :
    l.foldl (fun x c => x + f c) a = a + (l.map f).sum := by
  induction l generalizing a with
  | nil => simp
  | cons c cs ih => simp [List.foldl_cons, ih, add_assoc]

theorem bhatUpdate_keys (b : BHat) (i : ℕ) (v : Vec) :
    (bhatUpdate b i v).map Prod.fst = b.map Prod.fst := by
  induction b with
  | nil => rfl
  | cons p bs ih =>
    simp only [bhatUpdate, List.map_cons] at ih ⊢
    rw [ih]
    congr 1
    by_cases h : p.1 == i
    · simp [h]
    · simp [h]

theorem lookupD_update_self (b : BHat) (i : ℕ) (v : Vec)
    (hk : i ∈ b.map Prod.fst) : lookupD (bhatUpdate b i v) i = v := by
  induction b with
  | nil => simp at hk
  | cons p bs ih =>
    by_cases h : p.1 = i
    · simp [bhatUpdate, lookupD, h]
    · have hk' : i ∈ bs.map Prod.fst := by
        rcases List.mem_map.mp hk with ⟨x, hx, hfx⟩
        rcases List.mem_cons.mp hx with hx0 | hx1
        · exact absurd (hx0 ▸ hfx) h
        · exact List.mem_map.mpr ⟨x, hx1, hfx⟩
      have hbe : (p.1 == i) = false := by simp [h]
      simp only [bhatUpdate, List.map_cons, hbe, Bool.false_eq_true, if_false]
      rw [lookupD, List.find?_cons_of_neg _ (by simp [h])]
      exact ih hk'

theorem lookupD_update_ne (b : BHat) (i j : ℕ) (v : Vec) (hij : j ≠ i) :
    lookupD (bhatUpdate b i v) j = lookupD b j := by
  induction b with
  | nil => rfl
  | cons p bs ih =>
    by_cases hpj : p.1 = j
    · have hpi : (p.1 == i) = false := by simp [hpj, hij]
      simp only [bhatUpdate, List.map_cons, hpi, Bool.false_eq_true, if_false]
      rw [lookupD, List.find?_cons_of_pos _ (by simp [hpj]),
          lookupD, List.find?_cons_of_pos _ (by simp [hpj])]
    · by_cases hpi : p.1 = i
      · simp only [bhatUpdate, List.map_cons, show (p.1 == i) = true by simp [hpi],
          if_true]
        rw [lookupD, List.find?_cons_of_neg _ (by simp [hpj]),
            lookupD, List.find?_cons_of_neg _ (by simp [hpj])]
        exact ih
      · simp only [bhatUpdate, List.map_cons, show (p.1 == i) = false by simp [hpi],
          Bool.false_eq_true, if_false]
        rw [lookupD, List.find?_cons_of_neg _ (by simp [hpj]),
            lookupD, List.find?_cons_of_neg _ (by simp [hpj])]
        exact ih

theorem lookupD_foldl_update_notmem (g : ClusterData → Vec) (ds : List ClusterData)
    (b : BHat) (j : ℕ) (hj : j ∉ ds.map ClusterData.id) :
    lookupD (ds.foldl (fun bb d => bhatUpdate bb d.id (g d)) b) j = lookupD b j := by
  induction ds generalizing b with
  | nil => rfl
  | cons d ds ih =>
    have hj1 : j ≠ d.id := fun hc => hj (by simp [hc])
    have hj2 : j ∉ ds.map ClusterData.id := fun hc => hj (by simp [hc])
    rw [List.foldl_cons, ih _ hj2, lookupD_update_ne _ _ _ _ hj1]

theorem lookupD_foldl_update (g : ClusterData → Vec) (cds : List ClusterData)
    (b : BHat) (c : ClusterData) (hnd : (cds.map ClusterData.id).Nodup)
    (hc : c ∈ cds) (hk : c.id ∈ b.map Prod.fst) :
    lookupD (cds.foldl (fun bb d => bhatUpdate bb d.id (g d)) b) c.id = g c := by
  induction cds generalizing b with
  | nil => simp at hc
  | cons d ds ih =>
    have hnd' : (ds.map ClusterData.id).Nodup := (List.nodup_cons.mp (by simpa using hnd)).2
    have hdnotin : d.id ∉ ds.map ClusterData.id :=
      (List.nodup_cons.mp (by simpa using hnd)).1
    rw [List.foldl_cons]
    rcases List.mem_cons.mp hc with hcd | hcs
    · subst hcd
      rw [lookupD_foldl_update_notmem _ _ _ _ hdnotin]
      exact lookupD_update_self _ _ _ hk
    · refine ih _ hnd' hcs ?_
      rw [bhatUpdate_keys]
      exact hk

theorem mStepFold_eq (env : NumEnv) (sigma2 : ℚ) (D : Mat) (fHat : Vec)
    (cds : List ClusterData) (b : BHat) (sa : ℚ) (Da : Mat) :
    cds.foldl (mStepCluster env sigma2 D fHat) (b, sa, Da) =
      (cds.foldl (fun bb c => bhatUpdate bb c.id (bHatSpec env sigma2 D fHat c)) b,
       sa + (cds.map (sigma2TermSpec env sigma2 D fHat)).sum,
       cds.foldl (fun M c => matAdd M (DTermSpec env sigma2 D fHat c)) Da) := by
  induction cds generalizing b sa Da with
  | nil => simp
  | cons c cs ih =>
    rw [List.foldl_cons, List.foldl_cons, List.foldl_cons]
    rw [show mStepCluster env sigma2 D fHat (b, sa, Da) c =
        (bhatUpdate b c.id (bHatSpec env sigma2 D fHat c),
         sa + sigma2TermSpec env sigma2 D fHat c,
         matAdd Da (DTermSpec env sigma2 D fHat c)) from rfl]
    rw [ih]
    simp [add_assoc]

theorem gllCluster_eq_spec (env : NumEnv) (sigma2 : ℚ) (D : Mat) (fHat : Vec)
    (b : BHat) (c : ClusterData) :
    gllCluster env sigma2 D fHat b c = gllClusterSpec env sigma2 D fHat b c := rfl

theorem gllSum_eq_spec (env : NumEnv) (sigma2 : ℚ) (D : Mat) (fHat : Vec)
    (b : BHat) (cds : List ClusterData) :
    gllSum env sigma2 D fHat b cds = gllSpec env sigma2 D fHat b cds := by
  unfold gllSum gllSpec
  rw [foldl_add_eq (gllCluster env sigma2 D fHat b) cds 0, zero_add]
  rfl

/-- C1: in every EM iteration the M-step computes, for each cluster (in
the fixed deterministic cluster order), V_hat_i, its pseudo-inverse,
b_hat_i, eps_hat_i and both accumulators exactly as specified, every
cluster using the same frozen pre-iteration sigma2_hat and D_hat; the
variance components are replaced only after all clusters are processed,
by sigma2_sum / n_obs and D_sum / n_clusters. -/
theorem c1_mstep_frozen (ctx : FitCtx) (s : LoopState) (c : ClusterData)
    (hnd : (ctx.cds.map ClusterData.id).Nodup) (hc : c ∈ ctx.cds)
    (hk : c.id ∈ s.b_hat_df.map Prod.fst) :
    lookupD (emStep ctx s).b_hat_df c.id =
      bHatSpec ctx.env s.sigma2_hat s.D_hat
        ((ctx.env.rfFit ctx.nest ctx.X (yStarOf ctx.cds s.b_hat_df ctx.n_obs)).oob) c ∧
    (emStep ctx s).sigma2_hat =
      (1 / (ctx.n_obs : ℚ)) *
        ((ctx.cds.map (sigma2TermSpec ctx.env s.sigma2_hat s.D_hat
          ((ctx.env.rfFit ctx.nest ctx.X (yStarOf ctx.cds s.b_hat_df ctx.n_obs)).oob))).sum) ∧
    (emStep ctx s).D_hat =
      smulMat (1 / (ctx.n_clusters : ℚ))
        ((ctx.cds.map (DTermSpec ctx.env s.sigma2_hat s.D_hat
          ((ctx.env.rfFit ctx.nest ctx.X (yStarOf ctx.cds s.b_hat_df ctx.n_obs)).oob))).foldl
          matAdd (zeroMat ctx.q ctx.q)) := by
  unfold emStep
  dsimp only
  unfold mStepFold
  rw [mStepFold_eq]
  refine ⟨?_, ?_, ?_⟩
  · exact lookupD_foldl_update _ ctx.cds s.b_hat_df c hnd hc hk
  · rw [zero_add]
  · rw [List.foldl_map]

/-- C2: in every EM iteration the value appended to the GLL history
equals GLL = Σ_i [eps^T·pinv(R_i)·eps + b_i^T·pinv(D)·b_i + logdet(D) +
logdet(R_i)] with R_i = sigma2·I_i, evaluated at the post-update b_hat,
sigma2_hat and D_hat of that iteration, with log-determinants taken from
the sign/log-magnitude decomposition. -/
theorem c2_gll_appended (ctx : FitCtx) (s : LoopState) :
    (emStep ctx s).gllSnaps =
      s.gllSnaps ++
        [gllSpec ctx.env (emStep ctx s).sigma2_hat (emStep ctx s).D_hat
          ((ctx.env.rfFit ctx.nest ctx.X (yStarOf ctx.cds s.b_hat_df ctx.n_obs)).oob)
          (emStep ctx s).b_hat_df ctx.cds] := by
  unfold emStep
  dsimp only
  rw [gllSum_eq_spec]

theorem emStep_iteration (ctx : FitCtx) (s : LoopState) :
    (emStep ctx s).iteration = s.iteration + 1 := rfl

theorem emStep_rfCalls (ctx : FitCtx) (s : LoopState) :
    (emStep ctx s).rfCalls = s.rfCalls + 1 := rfl

theorem emStep_lengths (ctx : FitCtx) (s : LoopState) :
    (emStep ctx s).bSnaps.length = s.bSnaps.length + 1 ∧
    (emStep ctx s).sigmaSnaps.length = s.sigmaSnaps.length + 1 ∧
    (emStep ctx s).DSnaps.length = s.DSnaps.length + 1 ∧
    (emStep ctx s).gllSnaps.length = s.gllSnaps.length + 1 := by
  unfold emStep
  dsimp only
  simp [List.length_append]

theorem emStep_stop_none (ctx : FitCtx) (s : LoopState) (h : ctx.thr = none) :
    (emStep ctx s).stop_flag = s.stop_flag := by
  unfold emStep stopUpdate
  dsimp only
  rw [h]

theorem emStep_first_begin (ctx : FitCtx) (s : LoopState) (t : ℚ)
    (hthr : ctx.thr = some t) (hb : s.iter_begun = false) :
    (emStep ctx s).stop_flag = s.stop_flag ∧ (emStep ctx s).iter_begun = true := by
  unfold emStep stopUpdate
  dsimp only
  rw [hthr, hb]
  exact ⟨rfl, rfl⟩

theorem emStep_stop_fires (ctx : FitCtx) (s : LoopState) (t : ℚ)
    (hthr : ctx.thr = some t) (hb : s.iter_begun = true)
    (hprev : s.gllSnaps.getLastD 0 ≠ 0)
    (hlt : |((emStep ctx s).gllSnaps.getLastD 0 - s.gllSnaps.getLastD 0) /
             s.gllSnaps.getLastD 0| < t) :
    (emStep ctx s).stop_flag = true := by
  unfold emStep at hlt ⊢
  dsimp only at hlt ⊢
  rw [List.getLastD_concat] at hlt
  unfold stopUpdate
  rw [hthr, hb]
  simp only [Bool.not_true, Bool.false_eq_true, if_false]
  rw [if_pos ⟨hprev, hlt⟩]

theorem emLoop_stopped (ctx : FitCtx) (fuel : ℕ) (s : LoopState)
    (h : s.stop_flag = true) : emLoop ctx fuel s = s := by
  cases fuel with
  | zero => rfl
  | succ k => simp [emLoop, h]

theorem emLoop_none_runs_all (ctx : FitCtx) (h : ctx.thr = none) (fuel : ℕ) :
    ∀ s : LoopState, s.stop_flag = false →
      (emLoop ctx fuel s).iteration = s.iteration + fuel ∧
      (emLoop ctx fuel s).stop_flag = false := by
  induction fuel with
  | zero => intro s hs; exact ⟨rfl, hs⟩
  | succ k ih =>
    intro s hs
    have hstep : (emStep ctx s).stop_flag = false := by
      rw [emStep_stop_none ctx s h]; exact hs
    have := ih (emStep ctx s) hstep
    constructor
    · show (emLoop ctx (k + 1) s).iteration = s.iteration + (k + 1)
      rw [show emLoop ctx (k + 1) s = emLoop ctx k (emStep ctx s) by
        simp [emLoop, hs]]
      rw [this.1, emStep_iteration]
      omega
    · rw [show emLoop ctx (k + 1) s = emLoop ctx k (emStep ctx s) by
        simp [emLoop, hs]]
      exact this.2

theorem emLoop_rf_some (ctx : FitCtx) (h : ctx.thr = none) (fuel : ℕ) :
    ∀ s : LoopState, s.stop_flag = false → 1 ≤ fuel →
      (emLoop ctx fuel s).rf.isSome = true := by
  induction fuel with
  | zero => intro s hs hf; omega
  | succ k ih =>
    intro s hs _
    rw [show emLoop ctx (k + 1) s = emLoop ctx k (emStep ctx s) by
      simp [emLoop, hs]]
    cases k with
    | zero => rfl
    | succ k2 =>
      exact ih (emStep ctx s) (by rw [emStep_stop_none ctx s h]; exact hs) (by omega)

theorem emLoop_snap_lengths (ctx : FitCtx) (fuel : ℕ) :
    ∀ s : LoopState,
      (emLoop ctx fuel s).bSnaps.length + s.iteration =
        s.bSnaps.length + (emLoop ctx fuel s).iteration ∧
      (emLoop ctx fuel s).sigmaSnaps.length + s.iteration =
        s.sigmaSnaps.length + (emLoop ctx fuel s).iteration ∧
      (emLoop ctx fuel s).DSnaps.length + s.iteration =
        s.DSnaps.length + (emLoop ctx fuel s).iteration ∧
      (emLoop ctx fuel s).gllSnaps.length + s.iteration =
        s.gllSnaps.length + (emLoop ctx fuel s).iteration := by
  induction fuel with
  | zero => intro s; rw [show emLoop ctx 0 s = s from rfl]; omega
  | succ k ih =>
    intro s
    by_cases hs : s.stop_flag = true
    · rw [emLoop_stopped ctx (k + 1) s hs]
      omega
    · rw [show emLoop ctx (k + 1) s = emLoop ctx k (emStep ctx s) by
        simp [emLoop]; intro hc; exact absurd hc hs]
      have h1 := ih (emStep ctx s)
      have h2 := emStep_lengths ctx s
      have h3 := emStep_iteration ctx s
      omega

theorem emLoop_succ (ctx : FitCtx) (fuel : ℕ) (s : LoopState) :
    emLoop ctx (fuel + 1) s = if s.stop_flag then s else emLoop ctx fuel (emStep ctx s) := rfl

/-- C3 (amended): on well-shaped inputs, (a) when the early-stop
threshold is set and max_iterations ≥ 2, if the iteration-2 relative GLL
change is defined (previous GLL nonzero) and below the threshold then the
loop runs exactly 2 iterations and the retained model is finalised from
the iteration-2 state, the one that triggered the stop; (b) when the
threshold is unset the loop runs exactly max_iterations iterations. -/
theorem c3_early_stop_amended (env : NumEnv) (nest : ℕ) (inp : FitInput)
    (maxIter : ℕ) (t : ℚ)
    (h1 : inp.Z.length = inp.X.length) (h2 : inp.y.length = inp.X.length)
    (h3 : inp.clusters.length = inp.X.length) :
    (2 ≤ maxIter →
      ∀ s1 s2 : LoopState,
      s1 = emStep (mkCtx env nest (some t) inp)
             (initState (dedupFirst inp.clusters) (qOf inp)) →
      s2 = emStep (mkCtx env nest (some t) inp) s1 →
      s1.gllSnaps.getLastD 0 ≠ 0 →
      |(s2.gllSnaps.getLastD 0 - s1.gllSnaps.getLastD 0) / s1.gllSnaps.getLastD 0| < t →
      fitCore env nest (some t) maxIter inp = finalizeCore (ccOf inp) (qOf inp) s2 ∧
        s2.iteration = 2) ∧
    (1 ≤ maxIter →
      itersCore (fitCore env nest none maxIter inp) = some maxIter) := by
  constructor
  · intro hm s1 s2 hs1 hs2 hprev hlt
    subst hs1
    subst hs2
    have hthr : (mkCtx env nest (some t) inp).thr = some t := rfl
    have hb0 : (initState (dedupFirst inp.clusters) (qOf inp)).iter_begun = false := rfl
    have hstop0 : (initState (dedupFirst inp.clusters) (qOf inp)).stop_flag = false := rfl
    have hfb := emStep_first_begin (mkCtx env nest (some t) inp)
      (initState (dedupFirst inp.clusters) (qOf inp)) t hthr hb0
    have hstop1 : (emStep (mkCtx env nest (some t) inp)
        (initState (dedupFirst inp.clusters) (qOf inp))).stop_flag = false := by
      rw [hfb.1]
      exact hstop0
    have hstop2 := emStep_stop_fires (mkCtx env nest (some t) inp)
      (emStep (mkCtx env nest (some t) inp)
        (initState (dedupFirst inp.clusters) (qOf inp))) t hthr hfb.2 hprev hlt
    obtain ⟨k, hk⟩ : ∃ k, maxIter = k + 2 := ⟨maxIter - 2, by omega⟩
    constructor
    · unfold fitCore
      rw [if_neg (by omega), if_neg (by omega), if_neg (by omega)]
      rw [hk, show k + 2 = k + 1 + 1 from rfl, emLoop_succ,
          if_neg (by rw [hstop0]; simp), emLoop_succ, if_neg (by rw [hstop1]; simp),
          emLoop_stopped _ _ _ hstop2]
    · rw [emStep_iteration, emStep_iteration]
      rfl
  · intro hm1
    unfold fitCore
    rw [if_neg (by omega), if_neg (by omega), if_neg (by omega)]
    have hrun := emLoop_none_runs_all (mkCtx env nest none inp) rfl maxIter
      (initState (dedupFirst inp.clusters) (qOf inp)) rfl
    have hsome := emLoop_rf_some (mkCtx env nest none inp) rfl maxIter
      (initState (dedupFirst inp.clusters) (qOf inp)) rfl hm1
    obtain ⟨rfm, hrfm⟩ := Option.isSome_iff_exists.mp hsome
    unfold itersCore finalizeCore
    rw [hrfm]
    dsimp only
    rw [hrun.1, show (initState (dedupFirst inp.clusters) (qOf inp)).iteration = 0 from rfl,
        Nat.zero_add]

/-- C3 counterexample: with the early-stop threshold set to the very
large value 10^6 but max_iterations = 1, a fresh fit runs exactly 1
iteration, not 2 — the claimed iteration count does not hold regardless
of max_iterations. -/
theorem c3_early_stop_counterexample :
    runIters envS (MERF.init 3 10 (some 1000000) 1) inpC2 = some 1 ∧
      (some 1 : Option ℕ) ≠ some 2 := by
  constructor
  · exact of_decide_eq_true (by with_unfolding_all rfl)
  · decide

/-- C3 witness: on concrete data with a constant-GLL oracle and
threshold 10^6, the fit with max_iterations = 7 stops after exactly 2
iterations and retains the iteration-2 state; with the threshold unset it
runs all 7 iterations. -/
theorem c3_early_stop_amended_witness :
    (fitCore envS 3 (some 1000000) 7 inpC2 =
      finalizeCore (ccOf inpC2) (qOf inpC2)
        (emStep (mkCtx envS 3 (some 1000000) inpC2)
          (emStep (mkCtx envS 3 (some 1000000) inpC2)
            (initState (dedupFirst inpC2.clusters) (qOf inpC2)))) ∧
      (emStep (mkCtx envS 3 (some 1000000) inpC2)
        (emStep (mkCtx envS 3 (some 1000000) inpC2)
          (initState (dedupFirst inpC2.clusters) (qOf inpC2)))).iteration = 2) ∧
    itersCore (fitCore envS 3 none 7 inpC2) = some 7 := by
  have h := c3_early_stop_amended envS 3 inpC2 7 1000000 rfl rfl rfl
  exact ⟨h.1 (by omega) _ _ rfl rfl
    (of_decide_eq_true (by with_unfolding_all rfl))
    (of_decide_eq_true (by with_unfolding_all rfl)),
    h.2 (by omega)⟩

/-- C4 (amended): each fit call that returns extends the three parameter
histories by iterations_run + 1 entries and the GLL history by
iterations_run entries, on top of whatever earlier fit calls on the same
instance left behind; the claimed equalities hold exactly when the call
starts from empty histories (a fresh instance). -/
theorem c4_history_lengths_amended (env : NumEnv) (m : MERF) (inp : FitInput)
    (r : FitResult) (h : (fitAux env m inp).1 = .ok r) :
    r.model.b_hat_history.length = m.b_hat_history.length + r.iterations + 1 ∧
    r.model.sigma2_hat_history.length = m.sigma2_hat_history.length + r.iterations + 1 ∧
    r.model.D_hat_history.length = m.D_hat_history.length + r.iterations + 1 ∧
    r.model.gll_history.length = m.gll_history.length + r.iterations := by
  unfold fitAux at h
  dsimp only at h
  unfold fitCore at h
  by_cases hc1 : inp.Z.length ≠ inp.X.length
  · rw [if_pos hc1] at h
    exact absurd h (by simp [Except.map])
  rw [if_neg hc1] at h
  by_cases hc2 : inp.y.length ≠ inp.X.length
  · rw [if_pos hc2] at h
    exact absurd h (by simp [Except.map])
  rw [if_neg hc2] at h
  by_cases hc3 : inp.clusters.length ≠ inp.X.length
  · rw [if_pos hc3] at h
    exact absurd h (by simp [Except.map])
  rw [if_neg hc3] at h
  unfold finalizeCore at h
  cases hrf : (emLoop (mkCtx env m.n_estimators m.gll_early_stop_threshold inp)
      m.max_iterations (initState (dedupFirst inp.clusters) (qOf inp))).rf with
  | none =>
    rw [hrf] at h
    exact absurd h (by simp [Except.map])
  | some rfm =>
    rw [hrf] at h
    dsimp only [Except.map] at h
    have hr := (Except.ok.injEq _ _).mp h.symm
    have hlen := emLoop_snap_lengths (mkCtx env m.n_estimators m.gll_early_stop_threshold inp)
      m.max_iterations (initState (dedupFirst inp.clusters) (qOf inp))
    rw [show (initState (dedupFirst inp.clusters) (qOf inp)).iteration = 0 from rfl,
        show (initState (dedupFirst inp.clusters) (qOf inp)).bSnaps = [] from rfl,
        show (initState (dedupFirst inp.clusters) (qOf inp)).sigmaSnaps = [] from rfl,
        show (initState (dedupFirst inp.clusters) (qOf inp)).DSnaps = [] from rfl,
        show (initState (dedupFirst inp.clusters) (qOf inp)).gllSnaps = [] from rfl] at hlen
    simp only [List.length_nil] at hlen
    rw [hr]
    simp only [applyToModel, List.length_append, List.length_cons]
    omega

/-- C4 counterexample: two consecutive fit calls on the same fresh
instance leave b_hat_history with 4 entries while the second call ran 1
iteration — 4 ≠ 1 + 1, so the claimed equality fails for that fit call. -/
theorem c4_history_lengths_counterexample :
    fitTwiceLens envC (MERF.init 3 10 none 1) inpC = some (4, 1) ∧ 4 ≠ 1 + 1 := by
  constructor
  · exact of_decide_eq_true (by with_unfolding_all rfl)
  · decide

/-- C4 witness: a single fit on a fresh instance (empty histories)
satisfies the amended law, which there reduces to the spec's
iterations_run + 1 count. -/
theorem c4_history_lengths_amended_witness :
    ∃ r, (fitAux envC (MERF.init 3 10 none 1) inpC).1 = .ok r ∧
      r.model.b_hat_history.length =
        (MERF.init 3 10 none 1).b_hat_history.length + r.iterations + 1 := by
  have hok : isOkFit (fitAux envC (MERF.init 3 10 none 1) inpC).1 = true :=
    of_decide_eq_true (by with_unfolding_all rfl)
  cases hh : (fitAux envC (MERF.init 3 10 none 1) inpC).1 with
  | error e =>
    rw [hh] at hok
    exact absurd hok (by simp [isOkFit])
  | ok r =>
    exact ⟨r, rfl, (c4_history_lengths_amended envC (MERF.init 3 10 none 1) inpC r hh).1⟩

/-- C5 (code bug): line 123 appends the live b_hat_df object to
b_hat_history without a copy, so after this concrete 1-iteration fit the
history's first entry equals the final coefficient table [(0, [9])] — the
same value as trained_b — instead of the all-zero initial table
[(0, [0])] that the per-iteration deep-copy snapshots (line 213) were
meant to preserve. -/
theorem c5_initial_history_aliased :
    headAndFinal envC (MERF.init 3 10 none 1) inpC = some ([(0, [9])], [(0, [9])], 1) ∧
      ([(0, [9])] : BHat) ≠ [(0, [0])] := by
  constructor
  · exact of_decide_eq_true (by with_unfolding_all rfl)
  · decide

/-- C1 witness: the M-step characterisation instantiated on concrete
two-cluster data with a concrete oracle environment. -/
theorem c1_mstep_frozen_witness :
    lookupD (emStep ctxW1 sW1).b_hat_df cW1.id =
      bHatSpec ctxW1.env sW1.sigma2_hat sW1.D_hat
        ((ctxW1.env.rfFit ctxW1.nest ctxW1.X (yStarOf ctxW1.cds sW1.b_hat_df ctxW1.n_obs)).oob) cW1 ∧
    (emStep ctxW1 sW1).sigma2_hat =
      (1 / (ctxW1.n_obs : ℚ)) *
        ((ctxW1.cds.map (sigma2TermSpec ctxW1.env sW1.sigma2_hat sW1.D_hat
          ((ctxW1.env.rfFit ctxW1.nest ctxW1.X (yStarOf ctxW1.cds sW1.b_hat_df ctxW1.n_obs)).oob))).sum) ∧
    (emStep ctxW1 sW1).D_hat =
      smulMat (1 / (ctxW1.n_clusters : ℚ))
        ((ctxW1.cds.map (DTermSpec ctxW1.env sW1.sigma2_hat sW1.D_hat
          ((ctxW1.env.rfFit ctxW1.nest ctxW1.X (yStarOf ctxW1.cds sW1.b_hat_df ctxW1.n_obs)).oob))).foldl
          matAdd (zeroMat ctxW1.q ctxW1.q)) :=
  c1_mstep_frozen ctxW1 sW1 cW1 (by decide)
    (List.mem_map.mpr ⟨0, by decide, rfl⟩) (by decide)

/-- C9: predict is side-effect free and idempotent on the model: the
post-call object state equals the pre-call state, and a second call with
identical inputs on that post-call state returns the same prediction
vector. -/
theorem c9_predict_pure (m : MERF) (X Z : Mat) (clusters : List ℕ) :
    (predictSt m X Z clusters).2 = m ∧
      (predictSt ((predictSt m X Z clusters).2) X Z clusters).1 =
        (predictSt m X Z clusters).1 := by
  have h : (predictSt m X Z clusters).2 = m := rfl
  exact ⟨h, by rw [h]⟩

end Merf
